import Mathlib

/-!
Verification development for the Gemini Co-Drawing component
(src/Home.tsx).  The component keeps a snapshot-based undo/redo history
for a raster canvas, a voice-capture pipeline that streams PCM16 audio to
a live transcription session, a transcript-merge policy for the shared
prompt buffer, and an error-message parser.  Each piece is embedded
shallowly below: React `useState`/`useRef` cells become fields of explicit
state records, and the event handlers become pure state-transition
functions.
-/

namespace Gemini

/-! ### Canvas history (src/Home.tsx lines 693-730)

The canvas pixels are abstracted by a type `α`; `canvas.toDataURL()` and
`loadState` are the identity on this abstraction (serialising and
re-drawing a snapshot restores the same surface).  The `loadState` image
decode is asynchronous in the source; following the spec's concurrency
model the stacks update synchronously and the surface holds the
eventually-rendered value. -/

/-- The canvas surface together with the two history stacks
(`undoStack`, `redoStack`), most recent snapshot last, exactly as the
source keeps them (`useState<string[]>([])`). -/
structure CanvasState (α : Type) where
  surface : α
  undoStack : List α
  redoStack : List α
deriving DecidableEq

/-- Embedding of `saveState` (lines 693-699): push the current surface
onto `undoStack` (`[...prev, state]` appends at the end) and clear
`redoStack`. -/
def saveState {α : Type} (s : CanvasState α) : CanvasState α :=
  { s with undoStack := s.undoStack ++ [s.surface], redoStack := [] }

/-- Embedding of `undo` (lines 714-721): if `undoStack` is empty the
handler returns immediately; otherwise the current surface is appended to
`redoStack`, the last element of `undoStack` is removed
(`prev.slice(0, -1)`) and loaded onto the canvas. -/
def undo {α : Type} (s : CanvasState α) : CanvasState α :=
  match s.undoStack.getLast? with
  | none => s
  | some previousState =>
    { surface := previousState
      undoStack := s.undoStack.dropLast
      redoStack := s.redoStack ++ [s.surface] }

/-- Embedding of `redo` (lines 723-730): symmetric to `undo`, popping the
last element of `redoStack` and appending the current surface to
`undoStack`. -/
def redo {α : Type} (s : CanvasState α) : CanvasState α :=
  match s.redoStack.getLast? with
  | none => s
  | some nextState =>
    { surface := nextState
      undoStack := s.undoStack ++ [s.surface]
      redoStack := s.redoStack.dropLast }

/-- A mutating canvas operation in the source (a stroke via
`startDrawing`, `clearCanvas`, or a programmatic image load) first calls
`saveState` and then changes the pixels; `f` abstracts the pixel
change. -/
def applyMutation {α : Type} (f : α → α) (s : CanvasState α) : CanvasState α :=
  let s' := saveState s
  { s' with surface := f s'.surface }

/-- A sequence of mutating operations, each immediately preceded by its
`saveState` call, applied in order. -/
def runOps {α : Type} : List (α → α) → CanvasState α → CanvasState α
  | [], s => s
  | f :: fs, s => runOps fs (applyMutation f s)

/-- Surface-and-undo-stack agreement: `undo` reads only these two fields
(the `redoStack` is written but never read), so this is the invariant
propagated through repeated undos. -/
def usAgree {α : Type} (s t : CanvasState α) : Prop :=
  s.surface = t.surface ∧ s.undoStack = t.undoStack

theorem usAgree_undo {α : Type} {s t : CanvasState α} (h : usAgree s t) :
    usAgree (undo s) (undo t) := by
  obtain ⟨h1, h2⟩ := h
  cases hg : t.undoStack.getLast? with
  | none => simp [undo, h2, hg, usAgree, h1]
  | some prev => simp [undo, h2, hg, usAgree, h1]

theorem undo_applyMutation {α : Type} (f : α → α) (s : CanvasState α) :
    undo (applyMutation f s) =
      { surface := s.surface, undoStack := s.undoStack,
        redoStack := [f s.surface] } := by
  simp [undo, applyMutation, saveState, List.getLast?_concat, List.dropLast_concat]

theorem runOps_undo_usAgree {α : Type} (fs : List (α → α)) (s : CanvasState α) :
    usAgree (undo^[fs.length] (runOps fs s)) s := by
  induction fs generalizing s with
  | nil => exact ⟨rfl, rfl⟩
  | cons f fs ih =>
    have h1 : usAgree (undo^[fs.length] (runOps fs (applyMutation f s)))
        (applyMutation f s) := ih (applyMutation f s)
    have h2 := usAgree_undo h1
    rw [undo_applyMutation] at h2
    show usAgree (undo^[fs.length + 1] (runOps fs (applyMutation f s))) s
    rw [Function.iterate_succ_apply' undo fs.length]
    exact ⟨h2.1, h2.2⟩

theorem redo_undo {α : Type} (s : CanvasState α) (h : s.undoStack ≠ []) :
    redo (undo s) = s := by
  rcases List.eq_nil_or_concat s.undoStack with h0 | ⟨u, x, hux⟩
  · exact absurd h0 h
  · obtain ⟨surf, us, rs⟩ := s
    simp only at hux
    subst hux
    simp [undo, redo, List.concat_eq_append, List.getLast?_concat,
      List.dropLast_concat]

theorem undo_length {α : Type} (s : CanvasState α) (h : s.undoStack ≠ []) :
    (undo s).undoStack.length = s.undoStack.length - 1 := by
  rcases List.eq_nil_or_concat s.undoStack with h0 | ⟨u, x, hux⟩
  · exact absurd h0 h
  · obtain ⟨surf, us, rs⟩ := s
    simp only at hux
    subst hux
    simp [undo, List.concat_eq_append, List.getLast?_concat, List.dropLast_concat]

theorem iterate_undo_length {α : Type} :
    ∀ (n : ℕ) (s : CanvasState α), n ≤ s.undoStack.length →
      (undo^[n] s).undoStack.length = s.undoStack.length - n := by
  intro n
  induction n with
  | zero => intro s _; simp
  | succ n ih =>
    intro s h
    have hne : s.undoStack ≠ [] := by
      intro h0; rw [h0] at h; simp at h
    rw [Function.iterate_succ_apply undo]
    rw [ih (undo s) (by rw [undo_length s hne]; omega)]
    rw [undo_length s hne]
    omega

theorem iterate_redo_undo {α : Type} :
    ∀ (n : ℕ) (s : CanvasState α), n ≤ s.undoStack.length →
      redo^[n] (undo^[n] s) = s := by
  intro n
  induction n with
  | zero => intro s _; rfl
  | succ n ih =>
    intro s h
    rw [Function.iterate_succ_apply' undo, Function.iterate_succ_apply redo]
    have hlen : (undo^[n] s).undoStack.length = s.undoStack.length - n :=
      iterate_undo_length n s (by omega)
    have hne : (undo^[n] s).undoStack ≠ [] := by
      intro h0
      rw [h0] at hlen
      simp at hlen
      omega
    rw [redo_undo _ hne]
    exact ih s (by omega)

theorem runOps_undoStack_length {α : Type} (fs : List (α → α)) (s : CanvasState α) :
    (runOps fs s).undoStack.length = s.undoStack.length + fs.length := by
  induction fs generalizing s with
  | nil => rfl
  | cons f fs ih =>
    show (runOps fs (applyMutation f s)).undoStack.length = _
    rw [ih (applyMutation f s)]
    simp [applyMutation, saveState]
    omega

/-- C1.  For every sequence of N mutating operations, each immediately
preceded by `saveState`, calling `undo` N times returns the canvas
surface to its pre-sequence state, and calling `redo` N times from there
replays forward to the final state (round-trip law over the
undo/redo stack pair). -/
theorem undo_redo_round_trip {α : Type} (fs : List (α → α)) (s : CanvasState α) :
    (undo^[fs.length] (runOps fs s)).surface = s.surface ∧
    redo^[fs.length] (undo^[fs.length] (runOps fs s)) = runOps fs s := by
  refine ⟨(runOps_undo_usAgree fs s).1, ?_⟩
  apply iterate_redo_undo
  rw [runOps_undoStack_length]
  omega

/-- C2.  Every mutating operation that is not an undo/redo calls
`saveState`, which sets `redoStack` to `[]`; consequently `redo`
immediately after a fresh mutation hits the `redoStack.length === 0`
guard and is a no-op on the state. -/
theorem mutation_clears_redoStack {α : Type} (f : α → α) (s : CanvasState α) :
    (saveState s).redoStack = [] ∧
    (applyMutation f s).redoStack = [] ∧
    redo (saveState s) = saveState s ∧
    redo (applyMutation f s) = applyMutation f s := by
  refine ⟨rfl, rfl, ?_, ?_⟩ <;> simp [redo, applyMutation, saveState]

/-! ### Voice capture pipeline (src/Home.tsx lines 563-690)

The pipeline state mirrors the React cells: `isListening`
(`useState(false)`) plus the four refs `audioContextRef`, `streamRef`,
`processorRef` and `sessionPromiseRef`, each modelled as a boolean
recording whether the ref currently holds a live handle, together with
the shared `prompt` buffer (`useState('')`). -/

/-- The audio subsystem state. -/
structure AudioState where
  isListening : Bool
  audioContext : Bool
  stream : Bool
  processor : Bool
  session : Bool
  prompt : String
deriving DecidableEq

/-- Embedding of `stopListening` (lines 670-685): set `isListening`
false, disconnect and null the processor if present, stop the tracks and
null the stream if present, close the audio context if present (close
errors are swallowed by the attached catch handler), and null the
session reference.
Every sub-step is guarded and error-free, so the function is total. -/
def stopListening (s : AudioState) : AudioState :=
  let s1 := { s with isListening := false }
  let s2 := if s1.processor then { s1 with processor := false } else s1
  let s3 := if s2.stream then { s2 with stream := false } else s2
  let s4 := if s3.audioContext then { s3 with audioContext := false } else s3
  { s4 with session := false }

/-- The `Stopped` state of the pipeline: not listening and every handle
released. -/
def isStopped (s : AudioState) : Prop :=
  s.isListening = false ∧ s.audioContext = false ∧ s.stream = false ∧
    s.processor = false ∧ s.session = false

/-- Observable outcome of a `startListening` call.
`failedAlreadyActive` is the outcome the specification describes for a
start while active; the source never produces it. -/
inductive StartOutcome where
  | skipped
  | streaming
  | errorCleanedUp
  | failedAlreadyActive
deriving DecidableEq

/-- Embedding of `startListening` (lines 595-668).  The guard
`if (isListening) return;` exits with no state change and no error.
Otherwise `isListening` is set and an `AudioContext` is created; `micOk`
abstracts whether `getUserMedia`/`live.connect` succeed.  On success the
stream and session references are installed; on failure the `catch`
branch runs `stopListening`. -/
def startListening (s : AudioState) (micOk : Bool) : AudioState × StartOutcome :=
  if s.isListening then (s, .skipped)
  else
    let s1 := { s with isListening := true, audioContext := true }
    if micOk then
      ({ s1 with stream := true, session := true }, .streaming)
    else
      (stopListening s1, .errorCleanedUp)

/-- The `onopen` callback (lines 611-636) installs the script processor
once the session reports open. -/
def onSessionOpen (s : AudioState) : AudioState :=
  { s with processor := true }

/-- Embedding of the transcript-merge closure inside `onmessage`
(lines 642-646): `slice(-1)` is the last character, a single space is
inserted when the buffer is non-empty and its last character is not the
space character, and the fragment is appended. -/
def mergeFragment (prev text : String) : String :=
  let space := if prev.length > 0 ∧ prev.data.getLast? ≠ some ' ' then " " else ""
  prev ++ space ++ text

/-- Embedding of `onmessage` (lines 637-649): the handler fires only when
`message.serverContent?.inputTranscription` is present (outer `Option`)
and its `text` field is truthy (`if (text)`, so an absent or empty string
leaves the prompt untouched); otherwise it merges the fragment. -/
def handleMessage (s : AudioState) (inputTranscription : Option (Option String)) :
    AudioState :=
  match inputTranscription with
  | none => s
  | some textField =>
    match textField with
    | none => s
    | some text =>
      if text = "" then s
      else { s with prompt := mergeFragment s.prompt text }

/-- Lifecycle events delivered by the live transcription session. -/
inductive SessionEvent where
  | errorEvt
  | closeEvt
  | messageEvt (inputTranscription : Option (Option String))

/-- Step relation of the audio subsystem on session callbacks:
`onerror` (lines 651-654) logs and calls `stopListening`, `onclose`
(line 650) calls `stopListening`, `onmessage` merges transcript
fragments. -/
def handleEvent (s : AudioState) : SessionEvent → AudioState
  | .errorEvt => stopListening s
  | .closeEvt => stopListening s
  | .messageEvt t => handleMessage s t

/-- The microphone and every related handle are released. -/
def micReleased (s : AudioState) : Prop :=
  s.isListening = false ∧ s.stream = false ∧ s.processor = false ∧
    s.session = false ∧ s.audioContext = false

/-- Closed form of `stopListening`: whatever the starting state, all
handles end up released and only the prompt survives. -/
theorem stopListening_closed_form (s : AudioState) :
    stopListening s =
      { isListening := false, audioContext := false, stream := false,
        processor := false, session := false, prompt := s.prompt } := by
  obtain ⟨l, a, st, p, se, pr⟩ := s
  cases a <;> cases st <;> cases p <;> simp [stopListening]

/-- A state in which the pipeline is fully active. -/
def listeningState : AudioState :=
  { isListening := true, audioContext := true, stream := true,
    processor := true, session := true, prompt := "" }

/-- The fully stopped state with an empty prompt. -/
def stoppedState : AudioState :=
  { isListening := false, audioContext := false, stream := false,
    processor := false, session := false, prompt := "" }

/-- C5 counterexample.  Calling `startListening` while already listening
hits the `if (isListening) return;` guard: the state is unchanged and the
outcome is `skipped`, not the `AlreadyActive` capture error the claim
requires (`failedAlreadyActive` is never produced). -/
theorem startListening_silent_noop_counterexample :
    startListening listeningState true = (listeningState, StartOutcome.skipped) ∧
    StartOutcome.skipped ≠ StartOutcome.failedAlreadyActive := by
  decide

/-- C5 amended.  Calling `startListening` while the pipeline is already
listening is a guarded silent no-op: it returns immediately with the
state unchanged and no error is signalled. -/
theorem startListening_already_listening (s : AudioState) (micOk : Bool)
    (h : s.isListening = true) :
    startListening s micOk = (s, StartOutcome.skipped) := by
  simp [startListening, h]

/-- C5 witness. -/
theorem startListening_already_listening_witness :
    listeningState.isListening = true ∧
    startListening listeningState true = (listeningState, StartOutcome.skipped) :=
  ⟨rfl, startListening_already_listening listeningState true rfl⟩

/-- C6.  `stopListening` is total and idempotent: from any state it
transitions to `Stopped` with the microphone handle (stream, processor,
audio context, session) released and the prompt untouched; calling it
when already `Stopped` is a no-op leaving the state unchanged. -/
theorem stopListening_idempotent_total (s : AudioState) :
    (stopListening s).isListening = false ∧
    (stopListening s).stream = false ∧
    (stopListening s).processor = false ∧
    (stopListening s).audioContext = false ∧
    (stopListening s).session = false ∧
    (stopListening s).prompt = s.prompt ∧
    stopListening (stopListening s) = stopListening s ∧
    (isStopped s → stopListening s = s) := by
  rw [stopListening_closed_form, stopListening_closed_form]
  obtain ⟨l, a, st, p, se, pr⟩ := s
  refine ⟨rfl, rfl, rfl, rfl, rfl, rfl, rfl, ?_⟩
  rintro ⟨h1, h2, h3, h4, h5⟩
  simp only at h1 h2 h3 h4 h5
  subst h1; subst h2; subst h3; subst h4; subst h5
  rfl

/-- C6 witness. -/
theorem stopListening_idempotent_total_witness :
    stopListening stoppedState = stoppedState ∧
    stopListening (stopListening stoppedState) = stopListening stoppedState := by
  have h := stopListening_idempotent_total stoppedState
  exact ⟨h.2.2.2.2.2.2.2 ⟨rfl, rfl, rfl, rfl, rfl⟩, h.2.2.2.2.2.2.1⟩

/-- C7.  Whenever a transport error (`onerror`) or a remote close
(`onclose`) fires, the step relation runs `stopListening`, so the whole
pipeline is torn down: capture stopped, processor disconnected, stream
tracks stopped, audio context and session references cleared — no active
microphone survives either event. -/
theorem error_close_teardown (s : AudioState) :
    handleEvent s SessionEvent.errorEvt = stopListening s ∧
    handleEvent s SessionEvent.closeEvt = stopListening s ∧
    micReleased (handleEvent s SessionEvent.errorEvt) ∧
    micReleased (handleEvent s SessionEvent.closeEvt) := by
  refine ⟨rfl, rfl, ?_, ?_⟩ <;>
    simp [handleEvent, stopListening_closed_form, micReleased]

/-- C10.  An inbound transcription message whose `text` fragment is the
empty string (or whose fields are absent) leaves the whole state — in
particular the prompt buffer — completely unchanged: no separator space
is appended. -/
theorem empty_fragment_noop (s : AudioState) :
    handleMessage s (some (some "")) = s ∧
    handleMessage s (some none) = s ∧
    handleMessage s none = s ∧
    (handleMessage s (some (some ""))).prompt = s.prompt := by
  refine ⟨rfl, rfl, rfl, rfl⟩

/-- Whether a string ends in a whitespace character; this is the
condition the specification's merge rule uses. -/
def endsWithWs (prev : String) : Bool :=
  match prev.data.getLast? with
  | some c => c.isWhitespace
  | none => false

/-- Modelled from the spec's words for comparison with the source's
`mergeFragment`: insert the separator exactly when the buffer is
non-empty and does not already end with whitespace. -/
def mergeFragmentClaim (prev text : String) : String :=
  let space := if prev.length > 0 ∧ endsWithWs prev = false then " " else ""
  prev ++ space ++ text

/-- C4 counterexample.  For a buffer ending in a tab — a whitespace
character that is not the space character — the source inserts a
separator space while the claim's whitespace rule forbids one, so the two
functions disagree on the concrete input `("a\t", "b")`. -/
theorem mergeFragment_tab_counterexample :
    mergeFragment "a\t" "b" = "a\t b" ∧
    mergeFragmentClaim "a\t" "b" = "a\tb" ∧
    mergeFragment "a\t" "b" ≠ mergeFragmentClaim "a\t" "b" := by
  refine ⟨by decide, by decide, by decide⟩

/-- C4 amended.  `mergeFragment` returns the buffer with the fragment
appended after it, inserting exactly one space separator if and only if
the buffer is non-empty and its last character is not the space
character `' '` (not: any whitespace); the buffer itself is kept as a
verbatim prefix, and the three example merges of the claim hold. -/
theorem mergeFragment_space_rule (prev text : String) :
    (mergeFragment prev text =
      prev ++ (if prev.length > 0 ∧ prev.data.getLast? ≠ some ' '
        then " " else "") ++ text) ∧
    (mergeFragment prev text).data.take prev.data.length = prev.data ∧
    mergeFragment "" "hello" = "hello" ∧
    mergeFragment "hello" "world" = "hello world" ∧
    mergeFragment "hello " "world" = "hello world" := by
  refine ⟨rfl, ?_, by decide, by decide, by decide⟩
  show ((prev ++ _) ++ text).data.take prev.data.length = prev.data
  rw [String.data_append, String.data_append]
  rw [List.append_assoc, List.take_append_of_le_length (by omega)]
  simp

/-! ### Audio frame quantization (src/Home.tsx lines 617-632)

`onaudioprocess` converts each floating-point sample to a 16-bit value
with `int16[i] = inputData[i] * 32768;`.  Storing into a JS `Int16Array`
applies ToInt16: the number is truncated toward zero and then reduced
modulo 2^16 into the signed 16-bit range (wrap-around, no clamping and
no rounding).  Samples are modelled as exact rationals; multiplication
by the power of two 32768 and truncation are exact on the binary
floating-point values the browser delivers, so no precision is lost in
this embedding. -/

/-- JS truncation toward zero (the integer-conversion step of ToInt16). -/
def jsTrunc (q : ℚ) : ℤ :=
  if 0 ≤ q then ⌊q⌋ else ⌈q⌉

/-- Wrap an integer into the signed 16-bit range, as ToInt16 does:
reduce modulo 2^16 and re-centre into `[-32768, 32767]`. -/
def toInt16 (n : ℤ) : ℤ :=
  let m := n % 65536
  if 32768 ≤ m then m - 65536 else m

/-- Embedding of the per-sample conversion `int16[i] = inputData[i] * 32768`. -/
def quantizeSample (q : ℚ) : ℤ :=
  toInt16 (jsTrunc (q * 32768))

/-- Embedding of the per-frame loop of `onaudioprocess`. -/
def quantizeFrame (samples : List ℚ) : List ℤ :=
  samples.map quantizeSample

/-- Rounding half away from zero upward, as `Math.round` does. -/
def jsRound (q : ℚ) : ℤ :=
  ⌊q + 1 / 2⌋

/-- Clamping into the representable int16 range. -/
def clampInt16 (n : ℤ) : ℤ :=
  max (-32768) (min 32767 n)

/-- Modelled from the spec's words for comparison with the source's
conversion: `round(sample * 32768)` clamped to the representable
range. -/
def quantizeSampleClaim (q : ℚ) : ℤ :=
  clampInt16 (jsRound (q * 32768))

theorem jsTrunc_intCast (n : ℤ) : jsTrunc ((n : ℚ)) = n := by
  unfold jsTrunc
  split
  · exact Int.floor_intCast n
  · exact Int.ceil_intCast n

theorem toInt16_eq_self {n : ℤ} (h1 : -32768 ≤ n) (h2 : n ≤ 32767) :
    toInt16 n = n := by
  show (if 32768 ≤ n % 65536 then n % 65536 - 65536 else n % 65536) = n
  split <;> omega

theorem jsTrunc_bounds {x : ℚ} (h1 : -32768 ≤ x) (h2 : x < 32768) :
    -32768 ≤ jsTrunc x ∧ jsTrunc x ≤ 32767 := by
  unfold jsTrunc
  split
  · rename_i h
    have hnn : 0 ≤ ⌊x⌋ := Int.floor_nonneg.mpr h
    have hub : ⌊x⌋ < 32768 := by
      rw [Int.floor_lt]
      exact_mod_cast h2
    omega
  · rename_i h
    push_neg at h
    have hub : ⌈x⌉ ≤ 0 := Int.ceil_le.mpr (by exact_mod_cast h.le)
    have hlb : (-32768 : ℚ) ≤ (⌈x⌉ : ℚ) := le_trans h1 (Int.le_ceil x)
    have hlb' : (-32768 : ℤ) ≤ ⌈x⌉ := by exact_mod_cast hlb
    omega

/-- C3 counterexample.  At a sample of exactly `1.0` the source computes
`1.0 * 32768 = 32768`, which ToInt16 wraps to `-32768`, while the
claim's clamped rounding yields `32767`; the two conversions disagree. -/
theorem quantize_one_wraps_counterexample :
    quantizeSample 1 = -32768 ∧
    quantizeSampleClaim 1 = 32767 ∧
    quantizeSample 1 ≠ quantizeSampleClaim 1 := by
  have hcast : (1 : ℚ) * 32768 = ((32768 : ℤ) : ℚ) := by norm_num
  have h1 : quantizeSample 1 = -32768 := by
    unfold quantizeSample
    rw [hcast, jsTrunc_intCast]
    decide
  have h2 : quantizeSampleClaim 1 = 32767 := by
    unfold quantizeSampleClaim jsRound
    rw [hcast]
    have hfloor : ⌊((32768 : ℤ) : ℚ) + 1 / 2⌋ = 32768 := by
      rw [Int.floor_eq_iff]
      constructor
      · push_cast
        norm_num
      · push_cast
        norm_num
    rw [hfloor]
    decide
  exact ⟨h1, h2, by rw [h1, h2]; decide⟩

/-- C3 amended.  Each produced frame converts every sample by truncating
`sample * 32768` toward zero and wrapping it into the signed 16-bit
range (ToInt16); for samples in `[-1.0, 1.0)` no wrap occurs and the
result is exactly the truncation, lying in `[-32768, 32767]`, but there
is no rounding and no clamping (a sample of exactly `1.0` wraps to
`-32768`, see the counterexample). -/
theorem quantize_trunc_wrap (frame : List ℚ)
    (h : ∀ q ∈ frame, -1 ≤ q ∧ q < 1) :
    quantizeFrame frame = frame.map (fun q => jsTrunc (q * 32768)) ∧
    ∀ n ∈ quantizeFrame frame, -32768 ≤ n ∧ n ≤ 32767 := by
  have key : ∀ q ∈ frame, quantizeSample q = jsTrunc (q * 32768) ∧
      -32768 ≤ quantizeSample q ∧ quantizeSample q ≤ 32767 := by
    intro q hq
    obtain ⟨hl, hr⟩ := h q hq
    have hx1 : (-32768 : ℚ) ≤ q * 32768 := by linarith
    have hx2 : q * 32768 < 32768 := by linarith
    obtain ⟨hb1, hb2⟩ := jsTrunc_bounds hx1 hx2
    have heq : quantizeSample q = jsTrunc (q * 32768) :=
      toInt16_eq_self hb1 hb2
    exact ⟨heq, by rw [heq]; exact hb1, by rw [heq]; exact hb2⟩
  constructor
  · unfold quantizeFrame
    exact List.map_congr_left fun q hq => (key q hq).1
  · intro n hn
    unfold quantizeFrame at hn
    rw [List.mem_map] at hn
    obtain ⟨q, hq, rfl⟩ := hn
    exact (key q hq).2

/-- C3 witness: the amended statement instantiated at the concrete frame
`[0, -1]`, whose samples all lie in `[-1, 1)`. -/
theorem quantize_trunc_wrap_witness :
    (∀ q ∈ ([0, -1] : List ℚ), -1 ≤ q ∧ q < 1) ∧
    (quantizeFrame [0, -1] = ([0, -1] : List ℚ).map (fun q => jsTrunc (q * 32768)) ∧
     ∀ n ∈ quantizeFrame [0, -1], -32768 ≤ n ∧ n ≤ 32767) :=
  ⟨by decide, quantize_trunc_wrap [0, -1] (by decide)⟩

/-! ### Image generation submit (src/Home.tsx lines 853-901)

`handleSubmit` serialises the canvas, calls the external generation
endpoint, and on success stores the returned image; on any failure it
only updates the error display and loading flag.  The canvas pixels and
both history stacks are React state the handler never writes. -/

/-- Whole-application state relevant to `handleSubmit`: the canvas with
its history, plus the UI flags the handler writes. -/
structure AppState (α : Type) where
  canvas : CanvasState α
  isLoading : Bool
  errorMessage : String
  showErrorModal : Bool
  generatedImage : Option String
  hasKey : Option Bool
deriving DecidableEq

/-- One part of the generation response; `inlineData` carries the image
payload when present. -/
structure ResponsePart where
  inlineData : Option String
deriving DecidableEq

/-- Result of the awaited external call: either it threw (with the
error's `message`, the empty string standing for a falsy message), or it
returned a response whose `candidates?.[0]?.content?.parts` is the given
optional list. -/
inductive GenResult where
  | threw (msg : String)
  | responded (parts : Option (List ResponsePart))

/-- The scan `for (const part of parts) if (part.inlineData) ...` that
extracts the first inline image payload, or none. -/
def extractImage : Option (List ResponsePart) → Option String
  | none => none
  | some parts => firstInline parts
where
  firstInline : List ResponsePart → Option String
    | [] => none
    | p :: rest =>
      match p.inlineData with
      | some d => some d
      | none => firstInline rest

/-- Naive substring test used to embed `String.prototype.includes`. -/
def containsSub (needle : List Char) : List Char → Bool
  | [] => needle.isEmpty
  | c :: rest => needle.isPrefixOf (c :: rest) || containsSub needle rest

/-- Embedding of `msg.includes(needle)`. -/
def strIncludes (hay needle : String) : Bool :=
  containsSub needle.data hay.data

/-- Embedding of `handleSubmit` (lines 853-901).  The canvas is only
read (`toDataURL`); afterwards, on a successful response with an image
part `generatedImage` is replaced, on a response without an image part
only an alert fires, and on a thrown error the message state and the
error modal are set — with the `hasKey` reset when the message mentions
a missing entity.  `finally` clears `isLoading` on every path. -/
def handleSubmit {α : Type} (s : AppState α) (result : GenResult) : AppState α :=
  match result with
  | .responded parts =>
    match extractImage parts with
    | some d =>
      { s with generatedImage := some ("data:image/png;base64," ++ d),
               isLoading := false }
    | none => { s with isLoading := false }
  | .threw msg =>
    if strIncludes msg "Requested entity was not found" then
      { s with hasKey := some false,
               errorMessage := "Sesi kunci API tamat atau tidak sah.",
               showErrorModal := true, isLoading := false }
    else
      { s with errorMessage :=
                 if msg = "" then "Ralat tidak dijangka berlaku." else msg,
               showErrorModal := true, isLoading := false }

/-- C8.  For every failing external generation call — the call throws,
or the response carries no image payload — `handleSubmit` leaves the
canvas surface pixels, the `undoStack` and the `redoStack` unchanged
(only the error display and loading state change), so the user can retry
without losing work. -/
theorem handleSubmit_failure_preserves_history {α : Type} (s : AppState α)
    (msg : String) (parts : Option (List ResponsePart))
    (hfail : extractImage parts = none) :
    ((handleSubmit s (GenResult.threw msg)).canvas.surface = s.canvas.surface ∧
     (handleSubmit s (GenResult.threw msg)).canvas.undoStack = s.canvas.undoStack ∧
     (handleSubmit s (GenResult.threw msg)).canvas.redoStack = s.canvas.redoStack) ∧
    ((handleSubmit s (GenResult.responded parts)).canvas.surface = s.canvas.surface ∧
     (handleSubmit s (GenResult.responded parts)).canvas.undoStack = s.canvas.undoStack ∧
     (handleSubmit s (GenResult.responded parts)).canvas.redoStack = s.canvas.redoStack) := by
  constructor
  · simp only [handleSubmit]
    split <;> exact ⟨rfl, rfl, rfl⟩
  · simp [handleSubmit, hfail]

/-- A concrete application state used by the C8 witness. -/
def appState0 : AppState ℕ :=
  { canvas := { surface := 7, undoStack := [1, 2], redoStack := [3] },
    isLoading := true, errorMessage := "", showErrorModal := false,
    generatedImage := none, hasKey := some true }

/-- C8 witness: a throwing call and an image-free response both leave
the history of `appState0` untouched. -/
theorem handleSubmit_failure_preserves_history_witness :
    extractImage (none : Option (List ResponsePart)) = none ∧
    (((handleSubmit appState0 (GenResult.threw "boom")).canvas.surface =
        appState0.canvas.surface ∧
      (handleSubmit appState0 (GenResult.threw "boom")).canvas.undoStack =
        appState0.canvas.undoStack ∧
      (handleSubmit appState0 (GenResult.threw "boom")).canvas.redoStack =
        appState0.canvas.redoStack) ∧
     ((handleSubmit appState0 (GenResult.responded none)).canvas.surface =
        appState0.canvas.surface ∧
      (handleSubmit appState0 (GenResult.responded none)).canvas.undoStack =
        appState0.canvas.undoStack ∧
      (handleSubmit appState0 (GenResult.responded none)).canvas.redoStack =
        appState0.canvas.redoStack)) :=
  ⟨rfl, handleSubmit_failure_preserves_history appState0 "boom" none rfl⟩

/-! ### Error message parsing (src/Home.tsx lines 526-536)

`parseError` runs the regular expression matching the literal text
left-brace `"error":` followed by a greedy dotstar and a closing brace
over the message, feeds the captured group to `JSON.parse`, and returns
`err.message || error`; any failure along the way (no match, parse
throw, no truthy `message`) is caught and the original string returned.
The regex scan is embedded exactly: the leftmost starting position wins,
the dot does not cross line terminators, and the greedy group extends to
the last closing brace on that line.  `JSON.parse` plus the truthiness
test on `err.message` is a platform built-in, modelled as an abstract
oracle: `none` for a parse exception, `some none` for a parse without a
truthy `message` field, `some (some m)` for a truthy message `m`. -/

/-- The character pattern before the capture group. -/
def envPat : List Char :=
  ("\x7b\"error\":" : String).data

/-- JS regular-expression line terminators, which the dot never
matches. -/
def isLineTerm (c : Char) : Bool :=
  c = '\n' || c = '\r' || c = '\u2028' || c = '\u2029'

/-- Content up to the last closing brace of the window, if any: the
greedy `dotstar` backtracks to the final brace the window offers. -/
def uptoLastBrace (window : List Char) : Option (List Char) :=
  match window.reverse.dropWhile (fun c => c ≠ '\x7d') with
  | [] => none
  | _ :: rest => some rest.reverse

/-- The leftmost match of the envelope pattern: at each position, if the
pattern is a prefix there and a closing brace follows on the same line,
the capture is everything up to the last such brace; otherwise the scan
moves one character right. -/
def findEnvelope : List Char → Option (List Char)
  | [] => none
  | c :: rest =>
    if envPat.isPrefixOf (c :: rest) then
      match uptoLastBrace (((c :: rest).drop envPat.length).takeWhile
          (fun ch => !(isLineTerm ch))) with
      | some g => some g
      | none => findEnvelope rest
    else findEnvelope rest

/-- Embedding of `parseError`: extract the envelope, hand it to the
`JSON.parse`-plus-truthiness oracle, and fall back to the raw input on
every failure (a missing match makes `m[1]` throw into the same catch
as a parse failure). -/
def parseError (jsonMessage : String → Option (Option String))
    (error : String) : String :=
  match findEnvelope error.data with
  | none => error
  | some g =>
    match jsonMessage (String.mk g) with
    | none => error
    | some none => error
    | some (some msg) => msg

/-- C9.  `parseError` is a total two-branch function: when the input
contains an embedded envelope whose captured content the JSON oracle
parses to a truthy `message`, that message is returned; in every other
case — no envelope match, a parse failure, or no truthy `message`
field — the original input string is returned unchanged, and no case
throws. -/
theorem parseError_two_branch (jsonMessage : String → Option (Option String))
    (error : String) :
    (findEnvelope error.data = none → parseError jsonMessage error = error) ∧
    (∀ g, findEnvelope error.data = some g →
      (jsonMessage (String.mk g) = none →
        parseError jsonMessage error = error) ∧
      (jsonMessage (String.mk g) = some none →
        parseError jsonMessage error = error) ∧
      (∀ m, jsonMessage (String.mk g) = some (some m) →
        parseError jsonMessage error = m)) := by
  constructor
  · intro h
    simp [parseError, h]
  · intro g hg
    refine ⟨?_, ?_, ?_⟩
    · intro h
      simp [parseError, hg, h]
    · intro h
      simp [parseError, hg, h]
    · intro m h
      simp [parseError, hg, h]

/-- A concrete JSON oracle for the C9 witness: it parses exactly the
envelope content of the witness input, yielding the message `quota`. -/
def jsonOracle0 : String → Option (Option String) :=
  fun g =>
    if g = "\x7b\"message\":\"quota\"\x7d" then some (some "quota")
    else none

/-- C9 witness: on an input embedding an error envelope the message is
extracted, and on a plain message the input comes back unchanged. -/
theorem parseError_two_branch_witness :
    findEnvelope ("error: \x7b\"error\":\x7b\"message\":\"quota\"\x7d\x7d" : String).data =
      some ("\x7b\"message\":\"quota\"\x7d" : String).data ∧
    parseError jsonOracle0 "error: \x7b\"error\":\x7b\"message\":\"quota\"\x7d\x7d" = "quota" ∧
    parseError jsonOracle0 "plain failure" = "plain failure" := by
  refine ⟨by decide, ?_, ?_⟩
  · exact ((parseError_two_branch jsonOracle0
      "error: \x7b\"error\":\x7b\"message\":\"quota\"\x7d\x7d").2
        (("\x7b\"message\":\"quota\"\x7d" : String).data) (by decide)).2.2
          "quota" (by decide)
  · exact (parseError_two_branch jsonOracle0 "plain failure").1 (by decide)

end Gemini
